import Mathlib

/-!
Verification development for the multi-agent orchestration system.

Shallow embedding of the core of the repository:
  src/agents/base_agent.py        (tool registry, dispatch, handoff protocol, BaseAgent.run)
  src/programmatic_agent_runner.py (run_agent_workflow_programmatic)
  src/real_agent_bridge.py         (run_agent_workflow bridge loop)
  src/tools/task_tools.py          (create_task_list, update_task_status)

Python dictionaries holding JSON data are embedded as an inductive Json type,
Python exceptions as Except, the mutable task file as an optional parsed task
array passed in and out of each operation, and the LLM client as an oracle
function supplied per agent.  All definitions are executable.
-/

/-- JSON values as produced by json.loads: null, booleans, numbers (the claims
only exercise integers), strings, arrays, and objects with string keys.  An
object models a parsed Python dict, so its keys are unique. -/
inductive Json where
  | null
  | bool (b : Bool)
  | int (n : Int)
  | str (s : String)
  | arr (elems : List Json)
  | obj (fields : List (String × Json))

/-- Lookup of a key in a parsed JSON object, modelling Python dict indexing
and the in operator on the (unique-keyed) dict. -/
def lookupField (fields : List (String × Json)) (key : String) : Option Json :=
  (fields.find? (fun kv => kv.1 == key)).map (fun kv => kv.2)

/-- Whitespace skipping for the JSON reader. -/
def skipWs (cs : List Char) : List Char :=
  cs.dropWhile (fun c => c == ' ' || c == '\n' || c == '\t' || c == '\r')

/-- Reads the remainder of a JSON string literal, positioned just after the
opening quote.  Returns the decoded characters and the input after the
closing quote. -/
def parseStrChars : List Char → Option (List Char × List Char)
  | [] => none
  | '"' :: rest => some ([], rest)
  | '\\' :: e :: rest =>
    (match e with
      | '"' => some '"'
      | '\\' => some '\\'
      | '/' => some '/'
      | 'n' => some '\n'
      | 't' => some '\t'
      | 'r' => some '\r'
      | _ => none).bind (fun c =>
        (parseStrChars rest).map (fun pr : List Char × List Char => (c :: pr.1, pr.2)))
  | c :: rest => (parseStrChars rest).map (fun pr => (c :: pr.1, pr.2))

/-- Reads a run of decimal digits, accumulating their value. -/
def parseDigitsAux (acc : Nat) : List Char → Nat × List Char
  | [] => (acc, [])
  | c :: rest =>
    if c.isDigit then parseDigitsAux (acc * 10 + (c.toNat - 48)) rest
    else (acc, c :: rest)

/-- Reads a natural number literal: at least one digit. -/
def parseNat : List Char → Option (Nat × List Char)
  | [] => none
  | c :: rest =>
    if c.isDigit then some (parseDigitsAux (c.toNat - 48) rest)
    else none

mutual

/-- Fuel-indexed recursive-descent reader for a JSON value. -/
def parseVal : Nat → List Char → Option (Json × List Char)
  | 0, _ => none
  | fuel + 1, cs =>
    match skipWs cs with
    | 'n' :: 'u' :: 'l' :: 'l' :: rest => some (Json.null, rest)
    | 't' :: 'r' :: 'u' :: 'e' :: rest => some (Json.bool true, rest)
    | 'f' :: 'a' :: 'l' :: 's' :: 'e' :: rest => some (Json.bool false, rest)
    | '"' :: rest =>
      (parseStrChars rest).map (fun pr => (Json.str ⟨pr.1⟩, pr.2))
    | '[' :: rest => (parseElems fuel (skipWs rest)).map (fun pr => (Json.arr pr.1, pr.2))
    | '\x7b' :: rest => (parseFields fuel (skipWs rest)).map (fun pr => (Json.obj pr.1, pr.2))
    | '-' :: rest =>
      (parseNat rest).map (fun pr => (Json.int (-(pr.1 : Int)), pr.2))
    | c :: rest =>
      if c.isDigit then (parseNat (c :: rest)).map (fun pr => (Json.int (pr.1 : Int), pr.2))
      else none
    | [] => none

/-- Reads array elements, positioned after the opening bracket (whitespace
already skipped). -/
def parseElems : Nat → List Char → Option (List Json × List Char)
  | 0, _ => none
  | fuel + 1, cs =>
    match cs with
    | ']' :: rest => some ([], rest)
    | _ =>
      match parseVal fuel cs with
      | none => none
      | some (v, rem) =>
        match skipWs rem with
        | ',' :: rest =>
          (parseElems fuel (skipWs rest)).map (fun pr => (v :: pr.1, pr.2))
        | ']' :: rest => some ([v], rest)
        | _ => none

/-- Reads object fields, positioned after the opening brace (whitespace
already skipped). -/
def parseFields : Nat → List Char → Option (List (String × Json) × List Char)
  | 0, _ => none
  | fuel + 1, cs =>
    match cs with
    | '\x7d' :: rest => some ([], rest)
    | '"' :: rest =>
      match parseStrChars rest with
      | none => none
      | some (kcs, rem) =>
        match skipWs rem with
        | ':' :: rest2 =>
          match parseVal fuel (skipWs rest2) with
          | none => none
          | some (v, rem2) =>
            match skipWs rem2 with
            | ',' :: rest3 =>
              (parseFields fuel (skipWs rest3)).map (fun pr => ((⟨kcs⟩, v) :: pr.1, pr.2))
            | '\x7d' :: rest3 => some ([(⟨kcs⟩, v)], rest3)
            | _ => none
        | _ => none
    | _ => none

end

/-- Models json.loads at the standard-library boundary: parses a textual blob
into a Json value or fails.  Every claim below depends only on the ok-or-error
outcome of this call, never on the exact grammar it accepts, so the fragment
covered here (null, booleans, integers, strings, arrays, objects) is all that
is needed. -/
def json_loads (s : String) : Except String Json :=
  match parseVal (s.length + 1) s.data with
  | some (v, rem) => if (skipWs rem).isEmpty then Except.ok v else Except.error "Extra data"
  | none => Except.error "Expecting value"

/-- A registered capability of an agent: the declared name (the __name__
attribute used for lookup) and the invocation itself.  The call field models
the composition str(f(**args)) on the already parsed argument object: an ok
result is the stringified return value, an error result is the message of any
exception raised while binding the keyword arguments or running the body. -/
structure Capability where
  name : String
  call : Json → Except String String

/-- Embedding of BaseAgent.invoke_function (src/agents/base_agent.py, lines
117 to 132): look the function up by exact name (first match wins), parse the
argument blob, call it, and render every failure as a returned string.  The
Lean function is total, mirroring the try-except wrapper through which the
Python version never raises. -/
def invoke_function (functions : List Capability) (function_name : String)
    (arguments : String) : String :=
  match functions.find? (fun f => f.name == function_name) with
  | none => "Error: Function " ++ function_name ++ " not found"
  | some f =>
    match json_loads arguments with
    | Except.error e => "Error executing " ++ function_name ++ ": " ++ e
    | Except.ok args =>
      match f.call args with
      | Except.error e => "Error executing " ++ function_name ++ ": " ++ e
      | Except.ok r => r

/-- The handoff sentinel template of src/agents/base_agent.py line 12,
instantiated at a target agent name. -/
def HANDOFF_TEMPLATE (agent_name : String) : String :=
  "Transferred to: " ++ agent_name ++ ". Adopt persona immediately."

/-- The literal part of the handoff detection pattern. -/
def handoffLit : List Char := "Transferred to: ".data

/-- Matching of the regex tail after the literal, that is of a lazy capture
group followed by a literal dot or the end anchor, at a fixed position: the
capture takes characters until the first dot (success), a newline that ends
the string (success, since the anchor matches just before a final newline),
the end of the input (success), or a newline elsewhere (failure, since the
dot class of the pattern does not cross newlines). -/
def matchCapture : List Char → Option (List Char)
  | [] => some []
  | c :: rest =>
    if c = '.' then some []
    else if c = '\n' then (if rest.isEmpty then some [] else none)
    else (matchCapture rest).map (fun l => c :: l)

/-- Boolean prefix test on character lists. -/
def isPrefixList : List Char → List Char → Bool
  | [], _ => true
  | _ :: _, [] => false
  | a :: as, b :: bs => a == b && isPrefixList as bs

/-- Attempt to match the full handoff pattern at one position. -/
def matchHandoffAt (cs : List Char) : Option (List Char) :=
  if isPrefixList handoffLit cs then matchCapture (cs.drop handoffLit.length) else none

/-- Embedding of re.search with the HANDOFF_PATTERN of
src/agents/base_agent.py line 13: the leftmost position at which the pattern
matches wins, and the returned string is the content of the capture group. -/
def searchHandoff : List Char → Option String
  | [] => (matchHandoffAt []).map (fun cap => ⟨cap⟩)
  | c :: cs =>
    match matchHandoffAt (c :: cs) with
    | some cap => some ⟨cap⟩
    | none => searchHandoff cs

/-- Python str.lower restricted to the ASCII range, applied characterwise. -/
def pyLower (s : String) : String := ⟨s.data.map Char.toLower⟩

/-- Python str.replace of every space by an underscore. -/
def replaceSpaces (s : String) : String :=
  ⟨s.data.map (fun c => if c = ' ' then '_' else c)⟩

/-- Embedding of create_handoff_function (src/agents/base_agent.py, lines 269
to 289): a zero-argument capability that ignores its argument object, always
returns the instantiated sentinel, and is named from the target.  The
description argument only feeds the docstring shown to the oracle and does
not influence either observable, so it is carried for fidelity but unused. -/
def create_handoff_function (target_agent_name : String)
    (description : Option String) : Capability :=
  { name := "transfer_to_" ++ replaceSpaces (pyLower target_agent_name),
    call := fun _ => Except.ok (HANDOFF_TEMPLATE target_agent_name) }

/-- Native Python classes that can appear as the declared type of a tool
parameter.  The six classes in the mapping table of get_function_schema are
distinguished; every other class is collapsed into the other constructor,
which the table sends to its default. -/
inductive PyType where
  | str
  | int
  | float
  | bool
  | list
  | dict
  | other (className : String)

/-- One parameter of a native function signature, as seen through inspect.
The declType field holds the declared type when the parameter carries an
annotation (for an Annotated type, its origin class), and none when the
annotation slot is empty.  The desc field holds the first Annotated metadata
entry, or the empty string when there is none, matching the two branches of
the source.  Python guarantees that parameter names within one signature are
distinct. -/
structure PyParam where
  name : String
  declType : Option PyType
  desc : String
  hasDefault : Bool

/-- The fixed class-to-JSON-schema table of get_function_schema, including
the default for unmapped classes. -/
def type_mapping : PyType → String
  | PyType.str => "string"
  | PyType.int => "integer"
  | PyType.float => "number"
  | PyType.bool => "boolean"
  | PyType.list => "array"
  | PyType.dict => "object"
  | PyType.other _ => "string"

/-- One property of a generated parameter schema. -/
structure PropertyEntry where
  name : String
  jsonType : String
  description : String

/-- The object-level schema returned by get_function_schema. -/
structure FunctionSchema where
  properties : List PropertyEntry
  required : List String

/-- Embedding of BaseAgent.get_function_schema (src/agents/base_agent.py,
lines 73 to 115): walk the signature in order; parameters without an
annotation are skipped entirely; an annotated parameter contributes one
property typed through the table, and joins the required list exactly when it
has no default. -/
def get_function_schema : List PyParam → FunctionSchema
  | [] => { properties := [], required := [] }
  | p :: rest =>
    let s := get_function_schema rest
    match p.declType with
    | none => s
    | some t =>
      { properties := { name := p.name, jsonType := type_mapping t, description := p.desc } :: s.properties,
        required := if p.hasDefault then s.required else p.name :: s.required }

/-- One tool-call request carried by an oracle response. -/
structure ToolCall where
  id : String
  function_name : String
  arguments : String

/-- One entry of the conversation buffer, a message dict keyed by role.  An
assistant message carries its recorded tool-call requests (the empty list
models the absence of the tool_calls key). -/
inductive Msg where
  | system (content : String)
  | user (content : String)
  | assistant (content : String) (tool_calls : List ToolCall)
  | tool (tool_call_id : String) (content : String)

/-- The shape of one oracle completion: optional text plus the ordered
tool-call requests. -/
structure OracleResponse where
  content : Option String
  tool_calls : List ToolCall

/-- An agent: identity, model selector, system instructions, capability
registry, and its LLM client.  The oracle field models the completion call
made by run; it receives the composed prompt and either answers or raises
(the error case, which run does not catch). -/
structure Agent where
  name : String
  model : String
  instructions : String
  functions : List Capability
  oracle : List Msg → Except String OracleResponse

/-- Sequential dispatch of the tool calls of one turn, mirroring the loop in
BaseAgent.run: calls are invoked one at a time in request order, one
tool-role message is appended per call, and the next-agent accumulator is
overwritten whenever a result matches the handoff pattern. -/
def execToolCalls (functions : List Capability) (selfName : String) :
    List ToolCall → List Msg × String
  | [] => ([], selfName)
  | tc :: rest =>
    let result := invoke_function functions tc.function_name tc.arguments
    let next1 := match searchHandoff result.data with
      | some t => t
      | none => selfName
    let pr := execToolCalls functions next1 rest
    (Msg.tool tc.id result :: pr.1, pr.2)

/-- Embedding of BaseAgent.run (src/agents/base_agent.py, lines 134 to 205):
prepend the system message, consult the oracle (whose failures propagate),
then either return the plain assistant message with self as next agent, or
record all tool calls in one assistant message, dispatch them sequentially,
and return the accumulated next-agent name.  Verbose printing is a pure
observability side effect and is not modelled. -/
def Agent.run (a : Agent) (messages : List Msg) : Except String (String × List Msg) :=
  match a.oracle (Msg.system a.instructions :: messages) with
  | Except.error e => Except.error e
  | Except.ok response =>
    let content := response.content.getD ""
    match response.tool_calls with
    | [] => Except.ok (a.name, [Msg.assistant content []])
    | tc :: tcs =>
      let pr := execToolCalls a.functions a.name (tc :: tcs)
      Except.ok (pr.2, Msg.assistant content (tc :: tcs) :: pr.1)

/-- Substring test on character lists. -/
def hasSubseq (needle : List Char) : List Char → Bool
  | [] => needle.isEmpty
  | c :: rest => isPrefixList needle (c :: rest) || hasSubseq needle rest

/-- Containment of the word transfer in the lowercased text. -/
def lowerHasTransfer (s : String) : Bool :=
  hasSubseq "transfer".data (s.data.map Char.toLower)

/-- Models the check of the programmatic runner that the printed form of a
message dict, lowercased, contains the word transfer.  The printed form
interleaves the textual fields with keys, quotes and commas; since the word
transfer contains no quote, comma or brace, and the escapes inserted by the
printer always start with a backslash, the word occurs in the printed form
exactly when it occurs in one of the textual fields, which is what is checked
here. -/
def mentionsTransfer : Msg → Bool
  | Msg.system c => lowerHasTransfer c
  | Msg.user c => lowerHasTransfer c
  | Msg.assistant c tcs =>
    lowerHasTransfer c ||
      tcs.any (fun tc => lowerHasTransfer tc.id || lowerHasTransfer tc.function_name ||
        lowerHasTransfer tc.arguments)
  | Msg.tool id c => lowerHasTransfer id || lowerHasTransfer c

/-- Dictionary lookup of an agent by name. -/
def lookupAgent (agents : List (String × Agent)) (name : String) : Option Agent :=
  (agents.find? (fun kv => kv.1 == name)).map (fun kv => kv.2)

/-- The break test of the programmatic runner after a turn without handoff:
the last buffered message is an assistant message and no message of the turn
mentions a transfer. -/
def programmaticBreak (buffer newMessages : List Msg) : Bool :=
  match buffer.getLast? with
  | some (Msg.assistant _ _) => !(newMessages.any mentionsTransfer)
  | _ => false

/-- The iteration body of run_agent_workflow_programmatic
(src/programmatic_agent_runner.py, lines 42 to 75), with the remaining
iteration budget as fuel.  A missing agent and a raising run both end the
loop with the buffer as built so far, matching the reported-error break and
the except break of the source. -/
def workflowLoop (agents : List (String × Agent)) :
    Nat → String → List Msg → List Msg
  | 0, _, messages => messages
  | fuel + 1, current, messages =>
    match lookupAgent agents current with
    | none => messages
    | some agent =>
      match agent.run messages with
      | Except.error _ => messages
      | Except.ok (next, newMessages) =>
        let messages2 := messages ++ newMessages
        if next = current ∧ programmaticBreak messages2 newMessages then messages2
        else workflowLoop agents fuel next messages2

/-- Embedding of run_agent_workflow_programmatic: seed the buffer with the
initial user prompt, start from the requested agent (falling back to the
first key when the request is absent or empty, per the Python or), and
free-run the loop under the iteration cap.  The source default for the cap is
20; callers below pass it explicitly. -/
def run_agent_workflow_programmatic (agents : List (String × Agent))
    (initial_prompt : String) (starting_agent_name : Option String)
    (max_iterations : Nat) : Except String (List Msg) :=
  match agents with
  | [] => Except.error "No agents provided"
  | (k0, _) :: _ =>
    let current := match starting_agent_name with
      | some s => if s = "" then k0 else s
      | none => k0
    Except.ok (workflowLoop agents max_iterations current [Msg.user initial_prompt])

/-- The iteration body of the bridge loop run_agent_workflow
(src/real_agent_bridge.py, lines 111 to 156), with the remaining iteration
budget as fuel and the running count of consecutive turns without handoff:
the count resets on every handoff and the loop stops once it reaches 3.
Streaming to the frontend stores and the task-file polling are side channels
that do not touch the conversation buffer and are not modelled; an exception
from run aborts the loop with the buffer as built so far. -/
def bridgeLoop (agents : List (String × Agent)) :
    Nat → String → Nat → List Msg → List Msg
  | 0, _, _, messages => messages
  | fuel + 1, current, noHandoffCount, messages =>
    match lookupAgent agents current with
    | none => messages
    | some agent =>
      match agent.run messages with
      | Except.error _ => messages
      | Except.ok (next, newMessages) =>
        let messages2 := messages ++ newMessages
        let count2 := if next = current then noHandoffCount + 1 else 0
        if 3 ≤ count2 then messages2
        else bridgeLoop agents fuel next count2 messages2

/-- Embedding of run_agent_workflow of src/real_agent_bridge.py: one user
message seeds the buffer, the cursor starts at the Orchestrator Agent, the
cap is 30 iterations, and the returned value is the final conversation
buffer. -/
def run_agent_workflow (agents : List (String × Agent)) (prompt : String) : List Msg :=
  bridgeLoop agents 30 "Orchestrator Agent" 0 [Msg.user prompt]

/-- One persisted task: the description value taken from the input (any JSON
value, per the source, which copies the field unchecked) and a status
string. -/
structure TaskEntry where
  description : Json
  status : String

/-- The task file content: none when the file does not exist, otherwise the
parsed JSON array it holds.  The json.dump and json.load round trip at the
file boundary is abstracted away; every operation below receives the current
file content and returns the new one. -/
def TaskFile := Option (List TaskEntry)

/-- Rendering of a task list back to the JSON array written to the file and
echoed inside success results. -/
def tasksToJson (tasks : List TaskEntry) : Json :=
  Json.arr (tasks.map (fun t => Json.obj [("description", t.description), ("status", Json.str t.status)]))

/-- The structured error object every task tool returns on failure, as the
parsed form of the json.dumps text. -/
def errorResult (message : String) : Json :=
  Json.obj [("status", Json.str "error"), ("message", Json.str message)]

/-- Reads the status field of a structured tool result. -/
def resultStatus (j : Json) : Option Json :=
  match j with
  | Json.obj fields => lookupField fields "status"
  | _ => none

/-- The validation loop of create_task_list over the parsed input array, with
the running enumeration index: a dict with a description field or a bare
string becomes a pending task; anything else aborts with the positional
error. -/
def formatTasks (i : Nat) : List Json → Except String (List TaskEntry)
  | [] => Except.ok []
  | t :: rest =>
    match t with
    | Json.obj fields =>
      match lookupField fields "description" with
      | some d =>
        (formatTasks (i + 1) rest).map (fun fs => { description := d, status := "pending" } :: fs)
      | none =>
        Except.error ("Task " ++ toString i ++ " must have a \x27description\x27 field or be a string")
    | Json.str s =>
      (formatTasks (i + 1) rest).map (fun fs => { description := Json.str s, status := "pending" } :: fs)
    | _ =>
      Except.error ("Task " ++ toString i ++ " must have a \x27description\x27 field or be a string")

/-- Embedding of create_task_list (src/tools/task_tools.py, lines 11 to 81):
parse the textual blob, insist on an array, normalize each entry to a pending
task, reject an empty result, and on success overwrite the file in full.
Filesystem availability (the mkdir and open calls) is assumed; every
validation failure returns the structured error and leaves the file
untouched. -/
def create_task_list (tasks : String) (file : TaskFile) : Json × TaskFile :=
  match json_loads tasks with
  | Except.error _ => (errorResult "Invalid JSON format for tasks", file)
  | Except.ok v =>
    match v with
    | Json.arr items =>
      match formatTasks 0 items with
      | Except.error msg => (errorResult msg, file)
      | Except.ok formatted =>
        if formatted.isEmpty then (errorResult "Task list cannot be empty", file)
        else
          (Json.obj [("status", Json.str "success"),
                     ("message", Json.str ("Created task list with " ++ toString formatted.length ++ " tasks")),
                     ("tasks", tasksToJson formatted),
                     ("task_count", Json.int formatted.length)],
           some formatted)
    | _ => (errorResult "Tasks must be a JSON array of task objects", file)

/-- The allowed status values of update_task_status. -/
def task_statuses : List String := ["pending", "in_progress", "completed"]

/-- In-place status assignment at one index, mirroring the single subscript
mutation of the source. -/
def setTaskStatus : List TaskEntry → Nat → String → List TaskEntry
  | [], _, _ => []
  | t :: rest, 0, status => { t with status := status } :: rest
  | t :: rest, i + 1, status => t :: setTaskStatus rest i status

/-- Embedding of update_task_status (src/tools/task_tools.py, lines 84 to
135): report a missing file, read the current array fresh, reject an index
outside the bounds (the index is a Python int, hence the Int type) or a
status outside the three enum values without touching the file, otherwise
mutate exactly that entry, rewrite the whole file, and echo the updated
entry.  The null fallback in the echo is unreachable because the bounds check
already passed. -/
def update_task_status (task_index : Int) (status : String) (file : TaskFile) :
    Json × TaskFile :=
  match file with
  | none => (errorResult "No active task list found. Create one first with create_task_list.", none)
  | some tasks =>
    if task_index < 0 ∨ (tasks.length : Int) ≤ task_index then
      (errorResult ("Task index " ++ toString task_index ++ " out of range (0-" ++
        toString ((tasks.length : Int) - 1) ++ ")"), some tasks)
    else if status ∉ task_statuses then
      (errorResult "Status must be \x27pending\x27, \x27in_progress\x27, or \x27completed\x27", some tasks)
    else
      let i := task_index.toNat
      let tasks2 := setTaskStatus tasks i status
      let updatedEntry := match tasks2[i]? with
        | some t => Json.obj [("description", t.description), ("status", Json.str t.status)]
        | none => Json.null
      (Json.obj [("status", Json.str "success"),
                 ("message", Json.str ("Updated task " ++ toString task_index ++ " to \x27" ++ status ++ "\x27")),
                 ("task", updatedEntry)],
       some tasks2)

/-- The attributes of a BaseAgent instance touched by update_instructions.
The system_message field models the _system_message attribute assigned on the
success path; it does not exist before the call, hence the option type. -/
structure AgentSettings where
  name : String
  instructions : String
  system_message : Option String

/-- Names bound at module scope of src/agents/base_agent.py: the imports of
lines 1 to 8 and the module-level definitions.  Name resolution inside a
method falls back to this scope and then to the builtins; ChatMessage occurs
in neither (it is no Python builtin), so referencing it raises NameError. -/
def base_agent_module_globals : List String :=
  ["Annotated", "Callable", "List", "Tuple", "Optional", "Dict", "Any",
   "dataclass", "field", "random", "re", "ABC", "abstractmethod", "OpenAI",
   "json", "HANDOFF_TEMPLATE", "HANDOFF_PATTERN", "BaseAgent",
   "create_handoff_function", "run_agent_loop"]

/-- Embedding of BaseAgent.update_instructions (src/agents/base_agent.py,
lines 243 to 251): the instructions attribute is assigned first; the second
statement then resolves the name ChatMessage, which is bound nowhere, so the
call raises NameError after the instance is already mutated.  The success
branch is kept to make the control flow of the source visible; it is
unreachable. -/
def update_instructions (a : AgentSettings) (new_instructions : String) :
    AgentSettings × Except String Unit :=
  let a1 : AgentSettings := { a with instructions := new_instructions }
  if base_agent_module_globals.contains "ChatMessage" then
    ({ a1 with system_message := some a1.instructions }, Except.ok ())
  else
    (a1, Except.error "NameError: name \x27ChatMessage\x27 is not defined")

/-- The two-agent scenario of the specification: agent A owns one capability,
the handoff to B. -/
def scenarioHandoff : Capability := create_handoff_function "B" none

/-- Oracle of agent A in the scenario: request the handoff tool call on the
first turn (no tool result in the prompt yet), plain text afterwards. -/
def scenarioOracleA (msgs : List Msg) : Except String OracleResponse :=
  if msgs.any (fun m => match m with | Msg.tool _ _ => true | _ => false) then
    Except.ok { content := some "Continuing.", tool_calls := [] }
  else
    Except.ok { content := none, tool_calls := [{ id := "call_1", function_name := "transfer_to_b", arguments := "\x7b\x7d" }] }

/-- Oracle of agent B in the scenario: always plain text, never a tool
call. -/
def scenarioOracleB (_ : List Msg) : Except String OracleResponse :=
  Except.ok { content := some "All done.", tool_calls := [] }

/-- Agent A of the scenario. -/
def agentScenarioA : Agent :=
  { name := "A", model := "gpt-4o-mini", instructions := "You are A.",
    functions := [scenarioHandoff], oracle := scenarioOracleA }

/-- Agent B of the scenario: no tools. -/
def agentScenarioB : Agent :=
  { name := "B", model := "gpt-4o-mini", instructions := "You are B.",
    functions := [], oracle := scenarioOracleB }

/-- The agent set of the scenario for the programmatic runner. -/
def scenarioAgents : List (String × Agent) := [("A", agentScenarioA), ("B", agentScenarioB)]

/-- Agent A renamed to the cursor the bridge loop hard-codes, so the same
scenario can be driven through run_agent_workflow. -/
def agentScenarioOrch : Agent :=
  { name := "Orchestrator Agent", model := "gpt-4o-mini", instructions := "You are A.",
    functions := [scenarioHandoff], oracle := scenarioOracleA }

/-- The agent set of the scenario for the bridge loop. -/
def scenarioAgentsBridge : List (String × Agent) :=
  [("Orchestrator Agent", agentScenarioOrch), ("B", agentScenarioB)]

/-- The conversation the programmatic runner produces on the scenario: the
seeded user message, the two messages of the turn of A, and one plain message
from B, after which the loop breaks at once. -/
def scenarioTraceProgrammatic : List Msg :=
  [Msg.user "Build a calculator.",
   Msg.assistant "" [{ id := "call_1", function_name := "transfer_to_b", arguments := "\x7b\x7d" }],
   Msg.tool "call_1" "Transferred to: B. Adopt persona immediately.",
   Msg.assistant "All done." []]

/-- The conversation the bridge loop produces on the scenario: the seeded
user message, the two messages of the handoff turn, and three plain turns of
B before the no-handoff streak reaches 3. -/
def scenarioTraceBridge : List Msg :=
  [Msg.user "Build a calculator.",
   Msg.assistant "" [{ id := "call_1", function_name := "transfer_to_b", arguments := "\x7b\x7d" }],
   Msg.tool "call_1" "Transferred to: B. Adopt persona immediately.",
   Msg.assistant "All done." [],
   Msg.assistant "All done." [],
   Msg.assistant "All done." []]

/-- Next-agent selection as the specification words it: the target of the
last tool result matching the handoff pattern, or the own name of the agent
when no result matches. -/
def lastHandoffTarget (selfName : String) (results : List String) : String :=
  ((results.filterMap (fun r => searchHandoff r.data)).getLast?).getD selfName

/-- Capture content as the specification words it: the part of the target
before the first dot (the whole target when it has none). -/
def captureUpToDot (name : String) : String :=
  ⟨name.data.takeWhile (fun c => !(c == '.'))⟩

/-- The description a task-list input entry supplies: the entry itself for a
bare string, the description field for an object, nothing otherwise. -/
def taskInputDescription : Json → Option Json
  | Json.str s => some (Json.str s)
  | Json.obj fields => lookupField fields "description"
  | _ => none

/-- Normalization as the specification words it: every entry must supply a
description, and each becomes a pending task, in order. -/
def normalizeTasks : List Json → Option (List TaskEntry)
  | [] => some []
  | t :: rest =>
    match taskInputDescription t with
    | some d => (normalizeTasks rest).map (fun ts => { description := d, status := "pending" } :: ts)
    | none => none

/-- The six JSON-schema primitive type names. -/
def sixJsonTypes : List String :=
  ["string", "integer", "number", "boolean", "array", "object"]

/-- A concrete capability that succeeds on any argument object. -/
def echoCap : Capability := { name := "echo", call := fun _ => Except.ok "ok" }

/-- A concrete capability whose body raises. -/
def boomCap : Capability := { name := "boom", call := fun _ => Except.error "division by zero" }

/-- A second capability registered under the same name as echoCap, to witness
that the first registration shadows it. -/
def echoShadowCap : Capability := { name := "echo", call := fun _ => Except.ok "shadowed" }

/-- A concrete agent whose oracle requests exactly one handoff tool call. -/
def agentRouter : Agent :=
  { name := "Router", model := "gpt-4o-mini", instructions := "Route the request.",
    functions := [create_handoff_function "Coder Agent" none],
    oracle := fun _ => Except.ok
      { content := some "Delegating.",
        tool_calls := [{ id := "call_9", function_name := "transfer_to_coder_agent", arguments := "\x7b\x7d" }] } }

theorem resultStatus_errorResult (m : String) :
    resultStatus (errorResult m) = some (Json.str "error") := rfl

theorem setTaskStatus_length (s : String) :
    ∀ (l : List TaskEntry) (i : Nat), (setTaskStatus l i s).length = l.length := by
  intro l
  induction l with
  | nil => intro i; cases i <;> rfl
  | cons t rest ih =>
    intro i
    cases i with
    | zero => rfl
    | succ i => simpa [setTaskStatus] using ih i

theorem setTaskStatus_getElem_ne (s : String) :
    ∀ (l : List TaskEntry) (i j : Nat), j ≠ i → (setTaskStatus l i s)[j]? = l[j]? := by
  intro l
  induction l with
  | nil => intro i j _; cases i <;> rfl
  | cons t rest ih =>
    intro i j hji
    cases i with
    | zero =>
      cases j with
      | zero => exact absurd rfl hji
      | succ j => simp [setTaskStatus]
    | succ i =>
      cases j with
      | zero => simp [setTaskStatus]
      | succ j =>
        simp only [setTaskStatus, List.getElem?_cons_succ]
        exact ih i j (fun h => hji (congrArg Nat.succ h))

theorem setTaskStatus_getElem_eq (s : String) :
    ∀ (l : List TaskEntry) (i : Nat) (t : TaskEntry), l[i]? = some t →
      (setTaskStatus l i s)[i]? = some { description := t.description, status := s } := by
  intro l
  induction l with
  | nil => intro i t h; cases i <;> simp at h
  | cons u rest ih =>
    intro i t h
    cases i with
    | zero =>
      simp only [List.getElem?_cons_zero, Option.some_inj] at h
      subst h
      simp [setTaskStatus]
    | succ i =>
      simp only [List.getElem?_cons_succ] at h
      simpa [setTaskStatus] using ih i t h

theorem setTaskStatus_idem (s : String) :
    ∀ (l : List TaskEntry) (i : Nat),
      setTaskStatus (setTaskStatus l i s) i s = setTaskStatus l i s := by
  intro l
  induction l with
  | nil => intro i; cases i <;> rfl
  | cons u rest ih =>
    intro i
    cases i with
    | zero => rfl
    | succ i => simp [setTaskStatus, ih i]

theorem update_task_status_invalid_shape (tasks : List TaskEntry) (task_index : Int)
    (status : String)
    (h : task_index < 0 ∨ (tasks.length : Int) ≤ task_index ∨ status ∉ task_statuses) :
    ∃ m, update_task_status task_index status (some tasks) = (errorResult m, some tasks) := by
  by_cases h1 : task_index < 0 ∨ (tasks.length : Int) ≤ task_index
  · refine ⟨"Task index " ++ toString task_index ++ " out of range (0-" ++
      toString ((tasks.length : Int) - 1) ++ ")", ?_⟩
    simp only [update_task_status, if_pos h1]
  · have h2 : status ∉ task_statuses := by tauto
    refine ⟨"Status must be \x27pending\x27, \x27in_progress\x27, or \x27completed\x27", ?_⟩
    simp only [update_task_status, if_neg h1, if_pos h2]

/-- C8: on a task file holding tasks, an index outside the bounds or a status
outside the three enum values makes update_task_status return a structured
error result and leave the file unchanged; invalid inputs are rejected, never
coerced. -/
theorem C8_update_task_status_rejects_invalid :
    ∀ (tasks : List TaskEntry) (task_index : Int) (status : String),
    (task_index < 0 ∨ (tasks.length : Int) ≤ task_index ∨ status ∉ task_statuses) →
    resultStatus (update_task_status task_index status (some tasks)).1 = some (Json.str "error") ∧
    (update_task_status task_index status (some tasks)).2 = some tasks := by
  intro tasks task_index status h
  obtain ⟨m, hm⟩ := update_task_status_invalid_shape tasks task_index status h
  rw [hm]
  exact ⟨resultStatus_errorResult m, rfl⟩

/-- Closed witness for C8, at the boundary instance of the specification: an
index of 5 on a two-task list. -/
theorem C8_update_task_status_rejects_invalid_witness :
    resultStatus (update_task_status 5 "completed"
      (some [{ description := Json.str "A", status := "pending" },
             { description := Json.str "B", status := "pending" }])).1 = some (Json.str "error") ∧
    (update_task_status 5 "completed"
      (some [{ description := Json.str "A", status := "pending" },
             { description := Json.str "B", status := "pending" }])).2 =
      some [{ description := Json.str "A", status := "pending" },
            { description := Json.str "B", status := "pending" }] :=
  C8_update_task_status_rejects_invalid
    [{ description := Json.str "A", status := "pending" },
     { description := Json.str "B", status := "pending" }] 5 "completed"
    (Or.inr (Or.inl (by decide)))

/-- C9: on a well-formed task file, an in-range index and a valid status,
update_task_status rewrites the file with only the status of the indexed task
changed (every other entry and every description is untouched), reports
success, and the identical call repeated is idempotent: it succeeds again and
returns the very same result and file state. -/
theorem C9_update_task_status_valid_frame_idempotent :
    ∀ (tasks : List TaskEntry) (task_index : Int) (status : String),
    0 ≤ task_index → task_index < (tasks.length : Int) → status ∈ task_statuses →
    ∃ tasks2 : List TaskEntry,
      (update_task_status task_index status (some tasks)).2 = some tasks2 ∧
      resultStatus (update_task_status task_index status (some tasks)).1 =
        some (Json.str "success") ∧
      tasks2.length = tasks.length ∧
      (∀ j : Nat, j ≠ task_index.toNat → tasks2[j]? = tasks[j]?) ∧
      (∀ t, tasks[task_index.toNat]? = some t →
        tasks2[task_index.toNat]? = some { description := t.description, status := status }) ∧
      update_task_status task_index status (some tasks2) =
        update_task_status task_index status (some tasks) := by
  intro tasks task_index status h1 h2 h3
  have hcond : ¬ (task_index < 0 ∨ (tasks.length : Int) ≤ task_index) := by omega
  have hst : ¬ status ∉ task_statuses := not_not_intro h3
  have hlen : (setTaskStatus tasks task_index.toNat status).length = tasks.length :=
    setTaskStatus_length status tasks task_index.toNat
  have hcond2 : ¬ (task_index < 0 ∨
      ((setTaskStatus tasks task_index.toNat status).length : Int) ≤ task_index) := by
    rw [hlen]; exact hcond
  refine ⟨setTaskStatus tasks task_index.toNat status, ?_, ?_, hlen, ?_, ?_, ?_⟩
  · simp only [update_task_status, if_neg hcond, if_neg hst]
  · simp only [update_task_status, if_neg hcond, if_neg hst]
    rfl
  · intro j hj
    exact setTaskStatus_getElem_ne status tasks task_index.toNat j hj
  · intro t ht
    exact setTaskStatus_getElem_eq status tasks task_index.toNat t ht
  · simp only [update_task_status, if_neg hcond, if_neg hcond2, if_neg hst,
      setTaskStatus_idem]

/-- Closed witness for C9 at the instance of the specification: completing
task 0 of a two-task list, twice. -/
theorem C9_update_task_status_valid_frame_idempotent_witness :
    ∃ tasks2 : List TaskEntry,
      (update_task_status 0 "completed"
        (some [{ description := Json.str "A", status := "pending" },
               { description := Json.str "B", status := "pending" }])).2 = some tasks2 ∧
      resultStatus (update_task_status 0 "completed"
        (some [{ description := Json.str "A", status := "pending" },
               { description := Json.str "B", status := "pending" }])).1 =
        some (Json.str "success") ∧
      tasks2.length =
        ([{ description := Json.str "A", status := "pending" },
          { description := Json.str "B", status := "pending" }] : List TaskEntry).length ∧
      (∀ j : Nat, j ≠ (0 : Int).toNat →
        tasks2[j]? = ([{ description := Json.str "A", status := "pending" },
                       { description := Json.str "B", status := "pending" }] : List TaskEntry)[j]?) ∧
      (∀ t, ([{ description := Json.str "A", status := "pending" },
              { description := Json.str "B", status := "pending" }] : List TaskEntry)[(0 : Int).toNat]? = some t →
        tasks2[(0 : Int).toNat]? = some { description := t.description, status := "completed" }) ∧
      update_task_status 0 "completed" (some tasks2) =
        update_task_status 0 "completed"
          (some [{ description := Json.str "A", status := "pending" },
                 { description := Json.str "B", status := "pending" }]) :=
  C9_update_task_status_valid_frame_idempotent
    [{ description := Json.str "A", status := "pending" },
     { description := Json.str "B", status := "pending" }] 0 "completed"
    (by decide) (by decide) (by decide)

/-- C10: update_instructions always fails with a NameError because the name
ChatMessage is bound neither in the module scope of base_agent.py nor in the
builtins, and the failure is not atomic: the instructions attribute has
already been overwritten with the new text when the exception is raised. -/
theorem C10_update_instructions_raises_after_mutation :
    ∀ (a : AgentSettings) (new_instructions : String),
    (update_instructions a new_instructions).2 =
      Except.error "NameError: name \x27ChatMessage\x27 is not defined" ∧
    (update_instructions a new_instructions).1.instructions = new_instructions ∧
    (update_instructions a new_instructions).1.name = a.name ∧
    (update_instructions a new_instructions).1.system_message = a.system_message := by
  intro a new_instructions
  exact ⟨rfl, rfl, rfl, rfl⟩

theorem find?_append_cons_of_not (function_name : String) (cap : Capability)
    (hcap : cap.name = function_name) :
    ∀ (fs1 fs2 : List Capability), (∀ f ∈ fs1, ¬ f.name = function_name) →
    (fs1 ++ cap :: fs2).find? (fun g => g.name == function_name) = some cap := by
  intro fs1
  induction fs1 with
  | nil =>
    intro fs2 _
    simp [List.find?_cons_of_pos, hcap]
  | cons f rest ih =>
    intro fs2 h
    have hf : ¬ f.name = function_name := h f (List.mem_cons_self f rest)
    have : ((f :: rest) ++ cap :: fs2) = f :: (rest ++ cap :: fs2) := rfl
    rw [this, List.find?_cons_of_neg _ (by simpa using hf)]
    exact ih fs2 (fun g hg => h g (List.mem_cons_of_mem f hg))

/-- C4: dispatch never raises; an unregistered name yields exactly the
not-found error string, and any failure while parsing the argument blob or
running the capability yields exactly the executing-error string carrying the
exception message.  Totality of invoke_function is the never-raises part;
the three conjuncts pin the returned text on every failure path. -/
theorem C4_dispatch_never_raises_error_strings :
    ∀ (functions : List Capability) (function_name arguments : String),
    ((∀ f ∈ functions, ¬ f.name = function_name) →
      invoke_function functions function_name arguments =
        "Error: Function " ++ function_name ++ " not found") ∧
    (∀ f e, functions.find? (fun g => g.name == function_name) = some f →
      json_loads arguments = Except.error e →
      invoke_function functions function_name arguments =
        "Error executing " ++ function_name ++ ": " ++ e) ∧
    (∀ f args e, functions.find? (fun g => g.name == function_name) = some f →
      json_loads arguments = Except.ok args → f.call args = Except.error e →
      invoke_function functions function_name arguments =
        "Error executing " ++ function_name ++ ": " ++ e) := by
  intro functions function_name arguments
  refine ⟨?_, ?_, ?_⟩
  · intro h
    have hn : functions.find? (fun g => g.name == function_name) = none :=
      List.find?_eq_none.mpr (fun g hg => by simpa using h g hg)
    simp only [invoke_function, hn]
  · intro f e hf he
    simp only [invoke_function, hf, he]
  · intro f args e hf ha he
    simp only [invoke_function, hf, ha, he]

/-- Closed witness for C4, exercising all three failure paths: an empty
registry, a malformed blob, and a capability whose body raises. -/
theorem C4_dispatch_never_raises_error_strings_witness :
    invoke_function [] "foo" "\x7b\x7d" = "Error: Function foo not found" ∧
    invoke_function [echoCap] "echo" "not json" = "Error executing echo: Expecting value" ∧
    invoke_function [boomCap] "boom" "\x7b\x7d" = "Error executing boom: division by zero" :=
  ⟨(C4_dispatch_never_raises_error_strings [] "foo" "\x7b\x7d").1 (by simp),
   (C4_dispatch_never_raises_error_strings [echoCap] "echo" "not json").2.1 echoCap
     "Expecting value" rfl rfl,
   (C4_dispatch_never_raises_error_strings [boomCap] "boom" "\x7b\x7d").2.2 boomCap
     (Json.obj []) "division by zero" rfl rfl rfl⟩

/-- C5: for a capability registered under the requested name behind any run
of capabilities with other names (lookup is by exact name, first match wins),
an argument blob that parses and a call that returns, dispatch returns
exactly the stringified call result. -/
theorem C5_dispatch_success_first_match :
    ∀ (fs1 fs2 : List Capability) (cap : Capability) (function_name arguments : String)
      (args : Json) (r : String),
    (∀ f ∈ fs1, ¬ f.name = function_name) →
    cap.name = function_name →
    json_loads arguments = Except.ok args →
    cap.call args = Except.ok r →
    invoke_function (fs1 ++ cap :: fs2) function_name arguments = r := by
  intro fs1 fs2 cap function_name arguments args r h1 h2 h3 h4
  have hf := find?_append_cons_of_not function_name cap h2 fs1 fs2 h1
  simp only [invoke_function, hf, h3, h4]

/-- Closed witness for C5: the capability named echo is found behind one
other capability, ahead of a shadowed duplicate, and its result is returned
verbatim. -/
theorem C5_dispatch_success_first_match_witness :
    invoke_function [boomCap, echoCap, echoShadowCap] "echo" "\x7b\x7d" = "ok" :=
  C5_dispatch_success_first_match [boomCap] [echoShadowCap] echoCap "echo" "\x7b\x7d"
    (Json.obj []) "ok" (by simp [boomCap]) rfl rfl rfl

theorem getLastD_cons {α : Type} : ∀ (l : List α) (a d : α),
    ((a :: l).getLast?).getD d = (l.getLast?).getD a := by
  intro l
  induction l with
  | nil => intro a d; rfl
  | cons b m ih =>
    intro a d
    rw [List.getLast?_cons_cons]
    rw [ih b d, ih b a]

theorem execToolCalls_eq (functions : List Capability) :
    ∀ (tcs : List ToolCall) (selfName : String),
    execToolCalls functions selfName tcs =
      (tcs.map (fun tc => Msg.tool tc.id (invoke_function functions tc.function_name tc.arguments)),
       lastHandoffTarget selfName (tcs.map (fun tc =>
         invoke_function functions tc.function_name tc.arguments))) := by
  intro tcs
  induction tcs with
  | nil => intro selfName; rfl
  | cons tc rest ih =>
    intro selfName
    simp only [execToolCalls, List.map_cons]
    cases hs : searchHandoff (invoke_function functions tc.function_name tc.arguments).data with
    | none =>
      rw [ih selfName]
      simp only [lastHandoffTarget, List.filterMap_cons, hs]
    | some t =>
      rw [ih t]
      simp only [lastHandoffTarget, List.filterMap_cons, hs]
      rw [getLastD_cons]

/-- C2: when the oracle response of a run call carries tool-call requests,
the returned message list is one assistant message recording all calls
followed by one tool-role message per call, dispatched sequentially in
request order, and the returned next-agent name is the target of the last
tool result matching the handoff pattern, falling back to the own name of
the agent when no result matches. -/
theorem C2_run_dispatch_order_and_last_handoff :
    ∀ (a : Agent) (messages : List Msg) (response : OracleResponse),
    a.oracle (Msg.system a.instructions :: messages) = Except.ok response →
    response.tool_calls ≠ [] →
    a.run messages = Except.ok
      (lastHandoffTarget a.name (response.tool_calls.map (fun tc =>
         invoke_function a.functions tc.function_name tc.arguments)),
       Msg.assistant (response.content.getD "") response.tool_calls ::
         response.tool_calls.map (fun tc =>
           Msg.tool tc.id (invoke_function a.functions tc.function_name tc.arguments))) := by
  intro a messages response ho hne
  cases htc : response.tool_calls with
  | nil => exact absurd htc hne
  | cons tc tcs =>
    simp only [Agent.run, ho, htc, execToolCalls_eq a.functions (tc :: tcs) a.name]

/-- Closed witness for C2: a concrete agent whose oracle requests one handoff
call; the returned pair is the computed dispatch trace and the extracted
target. -/
theorem C2_run_dispatch_order_and_last_handoff_witness :
    agentRouter.run [Msg.user "hi"] = Except.ok
      ("Coder Agent",
       [Msg.assistant "Delegating."
          [{ id := "call_9", function_name := "transfer_to_coder_agent", arguments := "\x7b\x7d" }],
        Msg.tool "call_9" "Transferred to: Coder Agent. Adopt persona immediately."]) := by
  have h := C2_run_dispatch_order_and_last_handoff agentRouter [Msg.user "hi"]
    { content := some "Delegating.",
      tool_calls := [{ id := "call_9", function_name := "transfer_to_coder_agent", arguments := "\x7b\x7d" }] }
    rfl (by simp)
  exact h

theorem isPrefixList_append_self : ∀ (xs ys : List Char), isPrefixList xs (xs ++ ys) = true := by
  intro xs ys
  induction xs with
  | nil => rfl
  | cons a as ih => simp [isPrefixList, ih]

theorem matchHandoffAt_append (rest : List Char) :
    matchHandoffAt (handoffLit ++ rest) = matchCapture rest := by
  simp [matchHandoffAt, isPrefixList_append_self, List.drop_left]

theorem matchCapture_append_dot :
    ∀ (l ys : List Char), '\n' ∉ l.takeWhile (fun c => !(c == '.')) →
    matchCapture (l ++ '.' :: ys) = some (l.takeWhile (fun c => !(c == '.'))) := by
  intro l
  induction l with
  | nil =>
    intro ys _
    simp [matchCapture]
  | cons c rest ih =>
    intro ys hnl
    by_cases hdot : c = '.'
    · subst hdot
      simp [matchCapture, List.takeWhile_cons]
    · have hpc : (!(c == '.')) = true := by simp [hdot]
      have htw : (c :: rest).takeWhile (fun c => !(c == '.')) =
          c :: rest.takeWhile (fun c => !(c == '.')) := by
        rw [List.takeWhile_cons, if_pos hpc]
      have hc : ¬ c = '\n' := by
        intro h
        apply hnl
        rw [htw, h]
        exact List.mem_cons_self _ _
      have hrest : '\n' ∉ rest.takeWhile (fun c => !(c == '.')) := fun h =>
        hnl (htw ▸ List.mem_cons_of_mem c h)
      rw [htw, List.cons_append]
      simp only [matchCapture, if_neg hdot, if_neg hc, ih ys hrest, Option.map_some']

theorem searchHandoff_of_matchAt : ∀ (cs cap : List Char),
    matchHandoffAt cs = some cap → searchHandoff cs = some ⟨cap⟩ := by
  intro cs cap h
  cases cs with
  | nil =>
    rw [show matchHandoffAt [] = none from rfl] at h
    cases h
  | cons c rest =>
    simp only [searchHandoff, h]

/-- C3 (amended): for every target agent name with no newline before its
first dot, the factory produces a capability named from the lowercased,
space-to-underscore target with the transfer_to_ prefix, that capability
always returns exactly the sentinel text, and the detection pattern applied
to that text extracts exactly the part of the target before its first dot
(the whole target when it has none); on the concrete probe text naming the
Coder Agent the extraction yields exactly that name.  The restriction is
exactly what the counterexample forces: the lazy capture stops at the first
dot, so a newline after that dot is never reached and extraction still
succeeds, while a newline before any dot blocks the capture at the template
position, as in the counterexample. -/
theorem C3_handoff_roundtrip_amended :
    ∀ (target : String) (descr : Option String),
    '\n' ∉ target.data.takeWhile (fun c => !(c == '.')) →
    (create_handoff_function target descr).name =
      "transfer_to_" ++ replaceSpaces (pyLower target) ∧
    (∀ args : Json, (create_handoff_function target descr).call args =
      Except.ok ("Transferred to: " ++ target ++ ". Adopt persona immediately.")) ∧
    searchHandoff ("Transferred to: " ++ target ++ ". Adopt persona immediately.").data =
      some (captureUpToDot target) ∧
    (create_handoff_function "Coder Agent" none).name = "transfer_to_coder_agent" ∧
    searchHandoff "Transferred to: Coder Agent. Proceeding.".data = some "Coder Agent" := by
  intro target descr hnl
  refine ⟨rfl, fun _ => rfl, ?_, rfl, rfl⟩
  have hdata : ("Transferred to: " ++ target ++ ". Adopt persona immediately.").data =
      handoffLit ++ (target.data ++ ('.' :: " Adopt persona immediately.".data)) := by
    rw [String.data_append, String.data_append, List.append_assoc]
    rfl
  rw [hdata]
  apply searchHandoff_of_matchAt
  rw [matchHandoffAt_append]
  exact matchCapture_append_dot target.data _ hnl

/-- Closed witness for C3 at the Coder Agent instance, plus a target that
carries a newline after its first dot, which the amended hypothesis still
admits: the part before the dot is extracted. -/
theorem C3_handoff_roundtrip_amended_witness :
    (create_handoff_function "Coder Agent" none).call (Json.obj []) =
      Except.ok "Transferred to: Coder Agent. Adopt persona immediately." ∧
    searchHandoff ("Transferred to: " ++ "Coder Agent" ++ ". Adopt persona immediately.").data =
      some (captureUpToDot "Coder Agent") ∧
    captureUpToDot "Coder Agent" = "Coder Agent" ∧
    searchHandoff ("Transferred to: " ++ "X.\nY" ++ ". Adopt persona immediately.").data =
      some (captureUpToDot "X.\nY") ∧
    captureUpToDot "X.\nY" = "X" :=
  ⟨(C3_handoff_roundtrip_amended "Coder Agent" none (by decide)).2.1 (Json.obj []),
   (C3_handoff_roundtrip_amended "Coder Agent" none (by decide)).2.2.1,
   rfl,
   (C3_handoff_roundtrip_amended "X.\nY" none (by decide)).2.2.1,
   rfl⟩

/-- Counterexample to C3 as stated: at the concrete target holding a newline
before any dot, the capability still returns the sentinel text and the
substring between the literal prefix and the first dot is the full target,
yet the detection pattern matches nothing at all on this input: the lazy
capture cannot cross the newline, the anchor only accepts a newline in final
position, and no later position of this text starts the literal again. -/
theorem C3_counterexample_newline_target :
    (create_handoff_function "A\nB" none).call (Json.obj []) =
      Except.ok "Transferred to: A\nB. Adopt persona immediately." ∧
    captureUpToDot "A\nB" = "A\nB" ∧
    searchHandoff "Transferred to: A\nB. Adopt persona immediately.".data = none ∧
    (none : Option String) ≠ some "A\nB" :=
  ⟨rfl, rfl, rfl, by simp⟩

theorem required_mem_names :
    ∀ (params : List PyParam) (x : String),
    x ∈ (get_function_schema params).required → x ∈ params.map PyParam.name := by
  intro params
  induction params with
  | nil => intro x h; cases h
  | cons p rest ih =>
    intro x h
    cases hd : p.declType with
    | none =>
      simp only [get_function_schema, hd] at h
      exact List.mem_cons_of_mem _ (ih x h)
    | some t =>
      simp only [get_function_schema, hd] at h
      by_cases hdef : p.hasDefault
      · rw [if_pos hdef] at h
        exact List.mem_cons_of_mem _ (ih x h)
      · rw [if_neg hdef] at h
        rcases List.mem_cons.mp h with hx | hx
        · exact hx ▸ List.mem_cons_self _ _
        · exact List.mem_cons_of_mem _ (ih x hx)

theorem schema_props_required :
    ∀ (params : List PyParam), (params.map PyParam.name).Nodup →
    ∀ (p : PyParam) (t : PyType), p ∈ params → p.declType = some t →
    (get_function_schema params).properties.find? (fun q => q.name == p.name) =
      some { name := p.name, jsonType := type_mapping t, description := p.desc } ∧
    (p.name ∈ (get_function_schema params).required ↔ p.hasDefault = false) := by
  intro params
  induction params with
  | nil => intro _ p t hp _; cases hp
  | cons q rest ih =>
    intro hnd p t hp ht
    have hnd2 : (rest.map PyParam.name).Nodup := (List.nodup_cons.mp hnd).2
    have hqnotin : q.name ∉ rest.map PyParam.name := (List.nodup_cons.mp hnd).1
    rcases List.mem_cons.mp hp with hpq | hprest
    · subst hpq
      constructor
      · simp only [get_function_schema, ht]
        exact List.find?_cons_of_pos _ (by simp)
      · simp only [get_function_schema, ht]
        by_cases hdef : p.hasDefault
        · rw [if_pos hdef]
          apply iff_of_false
          · intro hmem
            exact hqnotin (required_mem_names rest p.name hmem)
          · simp [hdef]
        · rw [if_neg hdef]
          apply iff_of_true
          · exact List.mem_cons_self _ _
          · simpa using hdef
    · have hpn_in : p.name ∈ rest.map PyParam.name := List.mem_map_of_mem _ hprest
      have hqp : ¬ q.name = p.name := fun h => hqnotin (h ▸ hpn_in)
      cases hd : q.declType with
      | none =>
        simp only [get_function_schema, hd]
        exact ih hnd2 p t hprest ht
      | some u =>
        constructor
        · simp only [get_function_schema, hd]
          rw [List.find?_cons_of_neg _ (by simp [hqp])]
          exact (ih hnd2 p t hprest ht).1
        · simp only [get_function_schema, hd]
          by_cases hdef : q.hasDefault
          · rw [if_pos hdef]
            exact (ih hnd2 p t hprest ht).2
          · rw [if_neg hdef]
            have hne : ¬ p.name = q.name := fun h => hqp h.symm
            rw [List.mem_cons]
            simp only [hne, false_or]
            exact (ih hnd2 p t hprest ht).2

/-- C6: in the generated parameter schema, every parameter with a declared
native type receives the table image of that type (one of the six JSON-schema
primitive names, unmapped classes defaulting to string), and such a parameter
appears in the required list exactly when it has no default value.
Parameters are identified by name, which Python keeps unique within one
signature. -/
theorem C6_schema_type_table_and_required :
    ∀ (params : List PyParam), (params.map PyParam.name).Nodup →
    (∀ p t, p ∈ params → p.declType = some t →
      (get_function_schema params).properties.find? (fun q => q.name == p.name) =
        some { name := p.name, jsonType := type_mapping t, description := p.desc } ∧
      (p.name ∈ (get_function_schema params).required ↔ p.hasDefault = false)) ∧
    (∀ t, type_mapping t ∈ sixJsonTypes) ∧
    type_mapping PyType.str = "string" ∧ type_mapping PyType.int = "integer" ∧
    type_mapping PyType.float = "number" ∧ type_mapping PyType.bool = "boolean" ∧
    type_mapping PyType.list = "array" ∧ type_mapping PyType.dict = "object" ∧
    (∀ s, type_mapping (PyType.other s) = "string") := by
  intro params hnd
  refine ⟨fun p t hp ht => schema_props_required params hnd p t hp ht,
    ?_, rfl, rfl, rfl, rfl, rfl, rfl, fun s => rfl⟩
  intro t
  cases t <;> simp [type_mapping, sixJsonTypes]

/-- Closed witness for C6 on a two-parameter signature: a required integer
parameter and a defaulted parameter of an unmapped class. -/
theorem C6_schema_type_table_and_required_witness :
    ((get_function_schema
        [{ name := "x", declType := some PyType.int, desc := "the x", hasDefault := false },
         { name := "y", declType := some (PyType.other "Foo"), desc := "", hasDefault := true }]).properties.find?
      (fun q => q.name == "x") =
        some { name := "x", jsonType := "integer", description := "the x" } ∧
      ("x" ∈ (get_function_schema
        [{ name := "x", declType := some PyType.int, desc := "the x", hasDefault := false },
         { name := "y", declType := some (PyType.other "Foo"), desc := "", hasDefault := true }]).required ↔
        false = false)) ∧
    ((get_function_schema
        [{ name := "x", declType := some PyType.int, desc := "the x", hasDefault := false },
         { name := "y", declType := some (PyType.other "Foo"), desc := "", hasDefault := true }]).properties.find?
      (fun q => q.name == "y") =
        some { name := "y", jsonType := "string", description := "" } ∧
      ("y" ∈ (get_function_schema
        [{ name := "x", declType := some PyType.int, desc := "the x", hasDefault := false },
         { name := "y", declType := some (PyType.other "Foo"), desc := "", hasDefault := true }]).required ↔
        true = false)) :=
  ⟨(C6_schema_type_table_and_required
      [{ name := "x", declType := some PyType.int, desc := "the x", hasDefault := false },
       { name := "y", declType := some (PyType.other "Foo"), desc := "", hasDefault := true }]
      (by decide)).1
      { name := "x", declType := some PyType.int, desc := "the x", hasDefault := false }
      PyType.int (List.mem_cons_self _ _) rfl,
   (C6_schema_type_table_and_required
      [{ name := "x", declType := some PyType.int, desc := "the x", hasDefault := false },
       { name := "y", declType := some (PyType.other "Foo"), desc := "", hasDefault := true }]
      (by decide)).1
      { name := "y", declType := some (PyType.other "Foo"), desc := "", hasDefault := true }
      (PyType.other "Foo") (List.mem_cons_of_mem _ (List.mem_cons_self _ _)) rfl⟩

theorem formatTasks_of_normalize :
    ∀ (items : List Json) (i : Nat) (ts : List TaskEntry),
    normalizeTasks items = some ts → formatTasks i items = Except.ok ts := by
  intro items
  induction items with
  | nil =>
    intro i ts h
    simp only [normalizeTasks, Option.some_inj] at h
    rw [← h]
    rfl
  | cons t rest ih =>
    intro i ts h
    cases t with
    | str s =>
      simp only [normalizeTasks, taskInputDescription] at h
      cases hrest : normalizeTasks rest with
      | none => rw [hrest] at h; cases h
      | some ts2 =>
        rw [hrest, Option.map_some', Option.some_inj] at h
        subst h
        simp only [formatTasks, ih (i + 1) ts2 hrest, Except.map]
    | obj fields =>
      simp only [normalizeTasks, taskInputDescription] at h
      cases hfind : lookupField fields "description" with
      | none => rw [hfind] at h; cases h
      | some d =>
        rw [hfind] at h
        cases hrest : normalizeTasks rest with
        | none => rw [hrest] at h; cases h
        | some ts2 =>
          rw [hrest] at h
          simp only [Option.map_some', Option.some_inj] at h
          subst h
          simp only [formatTasks, hfind, ih (i + 1) ts2 hrest, Except.map]
    | null => simp [normalizeTasks, taskInputDescription] at h
    | bool b => simp [normalizeTasks, taskInputDescription] at h
    | int n => simp [normalizeTasks, taskInputDescription] at h
    | arr xs => simp [normalizeTasks, taskInputDescription] at h

theorem formatTasks_error_of_normalize_none :
    ∀ (items : List Json) (i : Nat),
    normalizeTasks items = none → ∃ m, formatTasks i items = Except.error m := by
  intro items
  induction items with
  | nil => intro i h; cases h
  | cons t rest ih =>
    intro i h
    cases t with
    | str s =>
      simp only [normalizeTasks, taskInputDescription] at h
      cases hrest : normalizeTasks rest with
      | some ts2 => rw [hrest] at h; simp at h
      | none =>
        obtain ⟨m, hm⟩ := ih (i + 1) hrest
        exact ⟨m, by simp only [formatTasks, hm, Except.map]⟩
    | obj fields =>
      simp only [normalizeTasks, taskInputDescription] at h
      cases hfind : lookupField fields "description" with
      | none =>
        refine ⟨"Task " ++ toString i ++ " must have a \x27description\x27 field or be a string", ?_⟩
        simp only [formatTasks, hfind]
      | some d =>
        rw [hfind] at h
        cases hrest : normalizeTasks rest with
        | some ts2 => rw [hrest] at h; simp at h
        | none =>
          obtain ⟨m, hm⟩ := ih (i + 1) hrest
          exact ⟨m, by simp only [formatTasks, hfind, hm, Except.map]⟩
    | null =>
      exact ⟨"Task " ++ toString i ++ " must have a \x27description\x27 field or be a string", rfl⟩
    | bool b =>
      exact ⟨"Task " ++ toString i ++ " must have a \x27description\x27 field or be a string", rfl⟩
    | int n =>
      exact ⟨"Task " ++ toString i ++ " must have a \x27description\x27 field or be a string", rfl⟩
    | arr xs =>
      exact ⟨"Task " ++ toString i ++ " must have a \x27description\x27 field or be a string", rfl⟩

theorem normalize_shape :
    ∀ (items : List Json) (ts : List TaskEntry), normalizeTasks items = some ts →
    ts.map TaskEntry.description = items.filterMap taskInputDescription ∧
    ∀ t ∈ ts, t.status = "pending" := by
  intro items
  induction items with
  | nil =>
    intro ts h
    simp only [normalizeTasks, Option.some_inj] at h
    subst h
    exact ⟨rfl, by intro t ht; cases ht⟩
  | cons t rest ih =>
    intro ts h
    simp only [normalizeTasks] at h
    cases hd : taskInputDescription t with
    | none => rw [hd] at h; cases h
    | some d =>
      rw [hd] at h
      cases hrest : normalizeTasks rest with
      | none => rw [hrest] at h; cases h
      | some ts2 =>
        rw [hrest] at h
        simp only [Option.map_some', Option.some_inj] at h
        subst h
        obtain ⟨h1, h2⟩ := ih ts2 hrest
        constructor
        · simp only [List.map_cons, List.filterMap_cons, hd, h1]
        · intro u hu
          rcases List.mem_cons.mp hu with hu | hu
          · rw [hu]
          · exact h2 u hu

/-- C7: a textual array of task descriptions, each a bare string or an object
carrying a description field, and nonempty, makes create_task_list overwrite
the task file with exactly those descriptions in order, every task pending,
and report success; an empty array or an array with a malformed entry yields
a structured error result and leaves the file untouched. -/
theorem C7_create_task_list_roundtrip :
    ∀ (blob : String) (file : TaskFile),
    (∀ items ts, json_loads blob = Except.ok (Json.arr items) →
      normalizeTasks items = some ts → ts ≠ [] →
      create_task_list blob file =
        (Json.obj [("status", Json.str "success"),
                   ("message", Json.str ("Created task list with " ++ toString ts.length ++ " tasks")),
                   ("tasks", tasksToJson ts),
                   ("task_count", Json.int ts.length)],
         some ts) ∧
      ts.map TaskEntry.description = items.filterMap taskInputDescription ∧
      (∀ t ∈ ts, t.status = "pending")) ∧
    (∀ items, json_loads blob = Except.ok (Json.arr items) →
      normalizeTasks items = none →
      resultStatus (create_task_list blob file).1 = some (Json.str "error") ∧
      (create_task_list blob file).2 = file) ∧
    (json_loads blob = Except.ok (Json.arr []) →
      create_task_list blob file = (errorResult "Task list cannot be empty", file)) := by
  intro blob file
  refine ⟨?_, ?_, ?_⟩
  · intro items ts hload hnorm hne
    have hfmt := formatTasks_of_normalize items 0 ts hnorm
    have hempty : ts.isEmpty = false := by
      cases ts with
      | nil => exact absurd rfl hne
      | cons a l => rfl
    refine ⟨?_, normalize_shape items ts hnorm⟩
    simp only [create_task_list, hload, hfmt, hempty, Bool.false_eq_true, if_false]
  · intro items hload hnorm
    obtain ⟨m, hm⟩ := formatTasks_error_of_normalize_none items 0 hnorm
    have hcreate : create_task_list blob file = (errorResult m, file) := by
      simp only [create_task_list, hload, hm]
    rw [hcreate]
    exact ⟨resultStatus_errorResult m, rfl⟩
  · intro hload
    simp only [create_task_list, hload]
    rfl

/-- Closed witness for C7 at the round-trip instance of the specification:
two bare strings. -/
theorem C7_create_task_list_roundtrip_witness :
    create_task_list "[\"A\",\"B\"]" none =
      (Json.obj [("status", Json.str "success"),
                 ("message", Json.str ("Created task list with " ++ toString
                   ([{ description := Json.str "A", status := "pending" },
                     { description := Json.str "B", status := "pending" }] : List TaskEntry).length ++ " tasks")),
                 ("tasks", tasksToJson
                   [{ description := Json.str "A", status := "pending" },
                    { description := Json.str "B", status := "pending" }]),
                 ("task_count", Json.int
                   ([{ description := Json.str "A", status := "pending" },
                     { description := Json.str "B", status := "pending" }] : List TaskEntry).length)],
       some [{ description := Json.str "A", status := "pending" },
             { description := Json.str "B", status := "pending" }]) :=
  ((C7_create_task_list_roundtrip "[\"A\",\"B\"]" none).1
    [Json.str "A", Json.str "B"]
    [{ description := Json.str "A", status := "pending" },
     { description := Json.str "B", status := "pending" }]
    rfl rfl (by simp)).1

/-- Counterexample to C1 as stated: on the two-agent scenario of the
specification, run_agent_workflow_programmatic terminates immediately after
the first turn that produces no handoff and ends in a plain assistant
message, so the conversation holds 4 messages, not the claimed
2 + 1 * 3 + 1 = 6 of the three-turn no-handoff tolerance. -/
theorem C1_counterexample_programmatic_trace :
    run_agent_workflow_programmatic scenarioAgents "Build a calculator." (some "A") 20 =
      Except.ok scenarioTraceProgrammatic ∧
    scenarioTraceProgrammatic.length = 4 ∧
    ¬ scenarioTraceProgrammatic.length = 2 + 1 * 3 + 1 :=
  ⟨rfl, rfl, by decide⟩

/-- C1 (amended): the three-consecutive-non-handoff tolerance belongs to the
bridge loop run_agent_workflow of src/real_agent_bridge.py, which on the
scenario produces exactly the six-message trace of the claim;
run_agent_workflow_programmatic instead stops as soon as a turn produces no
handoff while the buffer ends in a plain assistant message whose turn does
not mention a transfer, so on the same scenario it appends the user message,
runs A (assistant plus tool message), switches the cursor to B, runs B once,
and stops with 4 messages.  The second conjunct shows the early stop is
forced by the break and not by the iteration cap: any budget of at least two
iterations yields the same trace. -/
theorem C1_amended_termination_policies :
    run_agent_workflow_programmatic scenarioAgents "Build a calculator." (some "A") 20 =
      Except.ok scenarioTraceProgrammatic ∧
    (∀ fuel : Nat, workflowLoop scenarioAgents (fuel + 2) "A"
      [Msg.user "Build a calculator."] = scenarioTraceProgrammatic) ∧
    run_agent_workflow scenarioAgentsBridge "Build a calculator." = scenarioTraceBridge ∧
    scenarioTraceBridge.length = 2 + 1 * 3 + 1 :=
  ⟨rfl, fun _ => rfl, rfl, rfl⟩
